import Mathlib

/-!
Verification of the `reno_custom` TCP congestion-control algorithm
(src/reno_custom.c): a Reno + Westwood-style hybrid maintaining a
bandwidth estimate and minimum RTT per connection, with a BDP-based
ssthresh on loss and a BDP cap during congestion avoidance.

All `u32` fields are modelled as `Nat` values below `2^32`; every C
operation that can wrap a `u32` (`+`, `*`, a `(u32)` cast of a `u64`)
takes `% U32` at the point where the C code stores or casts.  Signed
`s32` inputs are modelled as `Int`.
-/

/-- `2^32`, the modulus of `u32` arithmetic. -/
def U32 : Nat := 4294967296

/-- The unset sentinel for `min_rtt_us`, `0x7fffffff` (from `reno_custom_init`). -/
def SENTINEL : Nat := 0x7fffffff

/-- `struct reno_bwe` of src/reno_custom.c: per-connection estimator state. -/
structure RenoBwe where
  min_rtt_us : Nat
  bwe_pps : Nat
  bwe_filt_pps : Nat
  spare : Nat
  deriving Repr, DecidableEq

/-- `reno_custom_init`: the freshly initialised estimator state. -/
def reno_custom_init : RenoBwe :=
  { min_rtt_us := SENTINEL, bwe_pps := 0, bwe_filt_pps := 0, spare := 0 }

/-- The EWMA filter step of `reno_custom_pkts_acked` (src/reno_custom.c
lines 52-55): initialise the filter to the sample when it was never set,
otherwise `(7F + B) >> 3` in `u32` arithmetic. -/
def ewma_filter (F B : Nat) : Nat :=
  if F = 0 then B else ((7 * F + B) % U32) / 8

/-- `reno_custom_pkts_acked` (src/reno_custom.c lines 31-56): guard against
unusable samples, track the running minimum RTT, compute the instantaneous
bandwidth `pkts * 10^6 / rtt` in a 64-bit intermediate and store its low 32
bits, then apply the EWMA filter. -/
def reno_custom_pkts_acked (ca : RenoBwe) (rtt_us : Int) (pkts : Nat) : RenoBwe :=
  if rtt_us ≤ 0 ∨ pkts = 0 then ca
  else
    let rtt : Nat := rtt_us.toNat
    let ca1 :=
      if ca.min_rtt_us = SENTINEL ∨ rtt < ca.min_rtt_us then
        { ca with min_rtt_us := rtt }
      else ca
    let inst_pps : Nat := pkts * 1000000 / rtt
    let bwe : Nat := inst_pps % U32
    { ca1 with bwe_pps := bwe, bwe_filt_pps := ewma_filter ca1.bwe_filt_pps bwe }

/-- `reno_custom_ssthresh` (src/reno_custom.c lines 58-84): fall back to
`max(cwnd/2, 2)` when the estimator is unset, otherwise return the BDP
target clipped to `[2, 4*cwnd]`; the `4*cwnd` assignment and the final
store of `bdp` are `u32` operations and truncate. -/
def reno_custom_ssthresh (ca : RenoBwe) (snd_cwnd : Nat) : Nat :=
  let reno_half := max (snd_cwnd / 2) 2
  if ca.min_rtt_us = SENTINEL ∨ ca.bwe_filt_pps = 0 then reno_half
  else
    let bdp_pkts : Nat := ca.bwe_filt_pps * ca.min_rtt_us / 1000000
    let target_cwnd : Nat :=
      if bdp_pkts < 2 then 2
      else if bdp_pkts > snd_cwnd * 4 then (snd_cwnd * 4) % U32
      else bdp_pkts % U32
    max target_cwnd 2

/-- The `struct tcp_sock` fields read and written by `reno_custom_cong_avoid`
and the kernel growth helpers it calls. -/
structure TcpSock where
  snd_cwnd : Nat
  snd_ssthresh : Nat
  snd_cwnd_cnt : Nat
  snd_cwnd_clamp : Nat
  deriving Repr, DecidableEq

/-- `u32` subtraction `a - b` with wraparound, for `a, b < 2^32`. -/
def sub32 (a b : Nat) : Nat := (a + U32 - b % U32) % U32

/-- `tp->snd_cwnd < tp->snd_ssthresh` (kernel predicate `tcp_in_slow_start`). -/
def tcp_in_slow_start (tp : TcpSock) : Prop := tp.snd_cwnd < tp.snd_ssthresh

instance (tp : TcpSock) : Decidable (tcp_in_slow_start tp) :=
  inferInstanceAs (Decidable (tp.snd_cwnd < tp.snd_ssthresh))

/-- Modelled from the spec: the kernel helper `tcp_slow_start` is not under
src/ (it is an external symbol of the host stack, listed in
src/reno_custom.mod.c).  Per the spec, slow start raises `cwnd` by up to
`acked`, capped at `ssthresh`, and returns the unused remainder for the
congestion-avoidance handoff; the standard implementation also clamps the
stored window at `snd_cwnd_clamp`.  All arithmetic is `u32`. -/
def tcp_slow_start (tp : TcpSock) (acked : Nat) : TcpSock × Nat :=
  let cwnd := min ((tp.snd_cwnd + acked) % U32) tp.snd_ssthresh
  let acked1 := sub32 acked (sub32 cwnd tp.snd_cwnd)
  ({ tp with snd_cwnd := min cwnd tp.snd_cwnd_clamp }, acked1)

/-- Modelled from the spec: the kernel helper `tcp_cong_avoid_ai` is not
under src/ (external symbol, listed in src/reno_custom.mod.c).  Per the
spec it applies additive increase of `acked / w` packets, accumulating the
fractional credit in `snd_cwnd_cnt` across calls; the standard
implementation drains credit accumulated at a higher window first and
clamps the result at `snd_cwnd_clamp`.  All arithmetic is `u32`. -/
def tcp_cong_avoid_ai (tp : TcpSock) (w acked : Nat) : TcpSock :=
  let tp1 :=
    if w ≤ tp.snd_cwnd_cnt then
      { tp with snd_cwnd_cnt := 0, snd_cwnd := (tp.snd_cwnd + 1) % U32 }
    else tp
  let cnt := (tp1.snd_cwnd_cnt + acked) % U32
  let tp2 :=
    if w ≤ cnt then
      let delta := cnt / w
      { tp1 with snd_cwnd_cnt := cnt - delta * w,
                 snd_cwnd := (tp1.snd_cwnd + delta) % U32 }
    else { tp1 with snd_cwnd_cnt := cnt }
  { tp2 with snd_cwnd := min tp2.snd_cwnd tp2.snd_cwnd_clamp }

/-- The BDP cap step of `reno_custom_cong_avoid` (src/reno_custom.c lines
102-112): when the estimator is set, compute the 64-bit
`bdp = bwe_filt_pps * min_rtt_us / 10^6`, truncate it to `u32` and double
it in `u32` arithmetic, and lower `snd_cwnd` to that cap when the cap is
positive and exceeded. -/
def bdp_cap_step (ca : RenoBwe) (tp : TcpSock) : TcpSock :=
  if ca.min_rtt_us ≠ SENTINEL ∧ 0 < ca.bwe_filt_pps then
    let bdp_pkts : Nat := ca.bwe_filt_pps * ca.min_rtt_us / 1000000
    let cap : Nat := ((bdp_pkts % U32) * 2) % U32
    if 0 < cap ∧ cap < tp.snd_cwnd then { tp with snd_cwnd := cap } else tp
  else tp

/-- The tail of `reno_custom_cong_avoid` after the slow-start phase:
additive increase with `w = snd_cwnd`, the BDP cap step, then the final
clamp `snd_cwnd = min(snd_cwnd, snd_cwnd_clamp)` (line 114). -/
def cong_avoid_core (ca : RenoBwe) (tp : TcpSock) (acked : Nat) : TcpSock :=
  let tp1 := tcp_cong_avoid_ai tp tp.snd_cwnd acked
  let tp2 := bdp_cap_step ca tp1
  { tp2 with snd_cwnd := min tp2.snd_cwnd tp2.snd_cwnd_clamp }

/-- `reno_custom_cong_avoid` (src/reno_custom.c lines 86-115).  The boolean
`limited` is the value of `tcp_is_cwnd_limited(sk)`: when false the call
returns at once.  In slow start, `tcp_slow_start` runs first and the call
returns early when it consumes all of `acked`. -/
def reno_custom_cong_avoid (ca : RenoBwe) (tp : TcpSock) (limited : Bool)
    (acked : Nat) : TcpSock :=
  if limited = false then tp
  else if tcp_in_slow_start tp then
    let sres := tcp_slow_start tp acked
    if sres.2 = 0 then sres.1 else cong_avoid_core ca sres.1 sres.2
  else cong_avoid_core ca tp acked

/-- Replay a list of `(rtt_us, pkts_acked)` ACK samples through
`reno_custom_pkts_acked`, oldest first. -/
def run_updates (ca : RenoBwe) : List (Int × Nat) → RenoBwe
  | [] => ca
  | p :: t => run_updates (reno_custom_pkts_acked ca p.1 p.2) t

/-- Spec-side definition for C5 as stated: the RTT values of all samples
with `rtt_sample > 0`, ignoring the packet count. -/
def posRtts : List (Int × Nat) → List Nat
  | [] => []
  | p :: t => if 0 < p.1 then p.1.toNat :: posRtts t else posRtts t

/-- The RTT values of the samples the code accepts: `rtt_sample > 0` and
`packets_acked ≠ 0` (src/reno_custom.c line 38). -/
def acceptedRtts : List (Int × Nat) → List Nat
  | [] => []
  | p :: t => if 0 < p.1 ∧ p.2 ≠ 0 then p.1.toNat :: acceptedRtts t else acceptedRtts t

/-- Guard of `reno_custom_pkts_acked`: a non-positive RTT or zero packet
count makes the call a no-op. -/
theorem pkts_acked_guard (ca : RenoBwe) (rtt : Int) (pkts : Nat)
    (h : rtt ≤ 0 ∨ pkts = 0) :
    reno_custom_pkts_acked ca rtt pkts = ca := by
  unfold reno_custom_pkts_acked
  rw [if_pos h]

/-- The `min_rtt_us` field written by one accepted sample. -/
theorem pkts_acked_min_rtt (ca : RenoBwe) (rtt : Int) (pkts : Nat)
    (hg : ¬ (rtt ≤ 0 ∨ pkts = 0)) :
    (reno_custom_pkts_acked ca rtt pkts).min_rtt_us =
      if ca.min_rtt_us = SENTINEL ∨ rtt.toNat < ca.min_rtt_us then rtt.toNat
      else ca.min_rtt_us := by
  simp only [reno_custom_pkts_acked, if_neg hg]
  split_ifs with h1 <;> rfl

/-- Replaying samples folds `min` of the accepted RTTs over the starting
`min_rtt_us`, for s32 RTT inputs. -/
theorem run_updates_min_rtt (l : List (Int × Nat)) :
    ∀ ca : RenoBwe, (∀ p ∈ l, p.1 ≤ 2147483647) →
    (run_updates ca l).min_rtt_us = (acceptedRtts l).foldl min ca.min_rtt_us := by
  induction l with
  | nil => intro ca _; rfl
  | cons p t ih =>
    intro ca hs
    have hst : ∀ q ∈ t, q.1 ≤ 2147483647 := fun q hq => hs q (List.mem_cons_of_mem _ hq)
    by_cases hacc : 0 < p.1 ∧ p.2 ≠ 0
    · have hg : ¬ (p.1 ≤ 0 ∨ p.2 = 0) := by
        rw [not_or]
        exact ⟨by omega, hacc.2⟩
      have hple : p.1.toNat ≤ 2147483647 := by
        have := hs p (List.mem_cons_self p t)
        omega
      simp only [run_updates, acceptedRtts, if_pos hacc, List.foldl_cons]
      rw [ih _ hst]
      congr 1
      rw [pkts_acked_min_rtt ca p.1 p.2 hg]
      simp only [SENTINEL]
      split_ifs with h1 <;> omega
    · have hg : p.1 ≤ 0 ∨ p.2 = 0 := by
        rcases not_and_or.mp hacc with h | h
        · exact Or.inl (by omega)
        · exact Or.inr (not_ne_iff.mp h)
      simp only [run_updates, acceptedRtts, if_neg hacc]
      rw [pkts_acked_guard ca p.1 p.2 hg]
      exact ih _ hst

/-- Spec-side version of the BDP cap step for C6 as stated: the cap is the
mathematical `2 * bdp`, with no truncation of `bdp` to `u32` and no `u32`
wraparound of the doubling. -/
def bdp_cap_step_spec (ca : RenoBwe) (tp : TcpSock) : TcpSock :=
  if ca.min_rtt_us ≠ SENTINEL ∧ 0 < ca.bwe_filt_pps then
    let bdp_pkts : Nat := ca.bwe_filt_pps * ca.min_rtt_us / 1000000
    let cap : Nat := 2 * bdp_pkts
    if 0 < cap ∧ cap < tp.snd_cwnd then { tp with snd_cwnd := cap } else tp
  else tp

/-- `tcp_cong_avoid_ai` never writes `snd_cwnd_clamp`. -/
theorem cong_avoid_ai_clamp (tp : TcpSock) (w a : Nat) :
    (tcp_cong_avoid_ai tp w a).snd_cwnd_clamp = tp.snd_cwnd_clamp := by
  simp only [tcp_cong_avoid_ai]
  split_ifs <;> rfl

/-- The BDP cap step never writes `snd_cwnd_clamp`. -/
theorem bdp_cap_clamp (ca : RenoBwe) (tp : TcpSock) :
    (bdp_cap_step ca tp).snd_cwnd_clamp = tp.snd_cwnd_clamp := by
  simp only [bdp_cap_step]
  split_ifs <;> rfl

/-- The post-slow-start tail of `reno_custom_cong_avoid` ends in the
unconditional clamp of line 114, so its window never exceeds the clamp. -/
theorem cong_avoid_core_cwnd_le (ca : RenoBwe) (tp : TcpSock) (a : Nat) :
    (cong_avoid_core ca tp a).snd_cwnd ≤ tp.snd_cwnd_clamp := by
  simp only [cong_avoid_core]
  exact le_trans (Nat.min_le_right _ _)
    (le_of_eq (by rw [bdp_cap_clamp, cong_avoid_ai_clamp]))

/-- C1: for every `cwnd ≥ 2`, `reno_custom_ssthresh` returns a value `≥ 2`;
when both `min_rtt_us` and `bwe_filt_pps` are known it returns at most
`4 * cwnd`; when either is unknown it returns exactly `max (cwnd / 2) 2`. -/
theorem C1_loss_target_bounds (ca : RenoBwe) (cwnd : Nat) (h : 2 ≤ cwnd) :
    2 ≤ reno_custom_ssthresh ca cwnd ∧
    (¬ (ca.min_rtt_us = SENTINEL ∨ ca.bwe_filt_pps = 0) →
      reno_custom_ssthresh ca cwnd ≤ 4 * cwnd) ∧
    ((ca.min_rtt_us = SENTINEL ∨ ca.bwe_filt_pps = 0) →
      reno_custom_ssthresh ca cwnd = max (cwnd / 2) 2) := by
  refine ⟨?_, ?_, ?_⟩
  · simp only [reno_custom_ssthresh]
    split
    · exact le_max_right _ _
    · exact le_max_right _ _
  · intro hk
    simp only [reno_custom_ssthresh, if_neg hk, U32]
    set B := ca.bwe_filt_pps * ca.min_rtt_us / 1000000 with hB
    have hm1 : (cwnd * 4) % 4294967296 ≤ cwnd * 4 := Nat.mod_le _ _
    have hm2 : B % 4294967296 ≤ B := Nat.mod_le _ _
    split_ifs with h1 h2 <;> omega
  · intro hk
    simp only [reno_custom_ssthresh, if_pos hk]

/-- Witness for C1 at a state with both estimator fields known. -/
theorem C1_loss_target_bounds_witness :
    2 ≤ 10 ∧
    (2 ≤ reno_custom_ssthresh ⟨100000, 0, 70, 0⟩ 10 ∧
    (¬ ((⟨100000, 0, 70, 0⟩ : RenoBwe).min_rtt_us = SENTINEL ∨
        (⟨100000, 0, 70, 0⟩ : RenoBwe).bwe_filt_pps = 0) →
      reno_custom_ssthresh ⟨100000, 0, 70, 0⟩ 10 ≤ 4 * 10) ∧
    (((⟨100000, 0, 70, 0⟩ : RenoBwe).min_rtt_us = SENTINEL ∨
        (⟨100000, 0, 70, 0⟩ : RenoBwe).bwe_filt_pps = 0) →
      reno_custom_ssthresh ⟨100000, 0, 70, 0⟩ 10 = max (10 / 2) 2)) :=
  ⟨by decide, C1_loss_target_bounds ⟨100000, 0, 70, 0⟩ 10 (by decide)⟩

/-- C7: a call with a non-positive RTT sample or a zero packet count leaves
the whole estimator state unchanged. -/
theorem C7_noop_on_bad_samples (ca : RenoBwe) (rtt : Int) (pkts : Nat)
    (h : rtt ≤ 0 ∨ pkts = 0) :
    reno_custom_pkts_acked ca rtt pkts = ca := by
  unfold reno_custom_pkts_acked
  rw [if_pos h]

/-- Witness for C7 at a negative RTT sample. -/
theorem C7_noop_on_bad_samples_witness :
    ((-5 : Int) ≤ 0 ∨ (3 : Nat) = 0) ∧
    reno_custom_pkts_acked reno_custom_init (-5) 3 = reno_custom_init :=
  ⟨by decide, C7_noop_on_bad_samples reno_custom_init (-5) 3 (by decide)⟩

/-- C8: with `is_cwnd_limited = false` the congestion-avoidance call leaves
`snd_cwnd` unchanged for any positive `acked`. -/
theorem C8_not_limited_noop (ca : RenoBwe) (tp : TcpSock) (acked : Nat)
    (h : 0 < acked) :
    (reno_custom_cong_avoid ca tp false acked).snd_cwnd = tp.snd_cwnd := rfl

/-- Witness for C8. -/
theorem C8_not_limited_noop_witness :
    0 < 3 ∧
    (reno_custom_cong_avoid reno_custom_init ⟨10, 20, 0, 100⟩ false 3).snd_cwnd =
      (⟨10, 20, 0, 100⟩ : TcpSock).snd_cwnd :=
  ⟨by decide, C8_not_limited_noop reno_custom_init ⟨10, 20, 0, 100⟩ 3 (by decide)⟩

/-- C3 fails as stated: at `rtt_us = 1`, `pkts = 4295` the 64-bit quotient
`4 295 000 000` exceeds `2^32` and the `u32` store truncates it to `32704`,
so `bw_instant` is not `pkts * 10^6 / rtt`. -/
theorem C3_counterexample :
    ¬ (reno_custom_pkts_acked reno_custom_init 1 4295).bwe_pps =
      4295 * 1000000 / 1 := by
  decide

/-- C3 amended: for any accepted sample, `bwe_pps` is the 64-bit quotient
`pkts * 10^6 / rtt` reduced `mod 2^32` by the `u32` store (the 64-bit
intermediate itself cannot overflow); the spec's two examples hold. -/
theorem C3_bw_formula (ca : RenoBwe) (rtt : Int) (pkts : Nat)
    (h1 : 0 < rtt) (h2 : pkts ≠ 0) :
    (reno_custom_pkts_acked ca rtt pkts).bwe_pps =
      (pkts * 1000000 / rtt.toNat) % U32 ∧
    (reno_custom_pkts_acked reno_custom_init 500000 5).bwe_pps = 10 ∧
    (reno_custom_pkts_acked reno_custom_init 1 1).bwe_pps = 1000000 := by
  have hg : ¬ (rtt ≤ 0 ∨ pkts = 0) := by
    rw [not_or]
    exact ⟨by omega, h2⟩
  refine ⟨?_, by decide, by decide⟩
  simp only [reno_custom_pkts_acked, if_neg hg]

/-- Witness for C3 at the spec's first example. -/
theorem C3_bw_formula_witness :
    (0 < (500000 : Int) ∧ (5 : Nat) ≠ 0) ∧
    ((reno_custom_pkts_acked reno_custom_init 500000 5).bwe_pps =
      (5 * 1000000 / (500000 : Int).toNat) % U32 ∧
    (reno_custom_pkts_acked reno_custom_init 500000 5).bwe_pps = 10 ∧
    (reno_custom_pkts_acked reno_custom_init 1 1).bwe_pps = 1000000) :=
  ⟨⟨by decide, by decide⟩,
    C3_bw_formula reno_custom_init 500000 5 (by decide) (by decide)⟩

/-- C4 fails as stated: at `F = 1`, `B = 8` the filter step returns
`(7*1 + 8) / 8 = 1`, which is neither strictly closer to `B` than `F` was
nor already converged (`1 ≠ 8`). -/
theorem C4_counterexample :
    ¬ (Nat.dist (ewma_filter 1 8) 8 < Nat.dist 1 8 ∨ (1 : Nat) = 8) := by
  decide

/-- C4 amended: each filter step moves `bw_filtered` weakly toward `B` and
never overshoots; from above (`B < F`) the step is strictly closer until
equality, while from below the step is strictly closer only while
`F + 8 ≤ B`, so the filter can stop up to `7` below `B` without reaching
it.  Stated for inputs whose `7F + B` fits in `u32`, where the C
expression does not wrap. -/
theorem C4_ewma_monotone (F B : Nat) (h : 7 * F + B < U32) :
    Nat.dist (ewma_filter F B) B ≤ Nat.dist F B ∧
    (B ≤ F → B ≤ ewma_filter F B ∧ ewma_filter F B ≤ F ∧
      (B < F → ewma_filter F B < F)) ∧
    (F ≤ B → F ≤ ewma_filter F B ∧ ewma_filter F B ≤ B ∧
      (F + 8 ≤ B → F < ewma_filter F B)) := by
  by_cases hF : F = 0
  · subst hF
    simp only [ewma_filter, if_true, eq_self_iff_true, Nat.dist]
    omega
  · have hstep : ewma_filter F B = (7 * F + B) / 8 := by
      rw [ewma_filter, if_neg hF, Nat.mod_eq_of_lt h]
    rw [hstep]
    simp only [Nat.dist]
    omega

/-- Witness for C4 with the filter 40 above the constant sample. -/
theorem C4_ewma_monotone_witness :
    7 * 100 + 60 < U32 ∧
    (Nat.dist (ewma_filter 100 60) 60 ≤ Nat.dist 100 60 ∧
    (60 ≤ 100 → 60 ≤ ewma_filter 100 60 ∧ ewma_filter 100 60 ≤ 100 ∧
      (60 < 100 → ewma_filter 100 60 < 100)) ∧
    (100 ≤ 60 → 100 ≤ ewma_filter 100 60 ∧ ewma_filter 100 60 ≤ 60 ∧
      (100 + 8 ≤ 60 → 100 < ewma_filter 100 60))) :=
  ⟨by decide, C4_ewma_monotone 100 60 (by decide)⟩

/-- C5 fails as stated: the call `update(rtt = 100, packets_acked = 0)` is
rejected by the guard, so its RTT does not enter the running minimum even
though `rtt_sample > 0`; `min_rtt_us` stays at the sentinel while the
minimum of the positive RTTs seen is `100`. -/
theorem C5_counterexample :
    ¬ (run_updates reno_custom_init [((100 : Int), 0)]).min_rtt_us =
      (posRtts [((100 : Int), 0)]).foldl min SENTINEL := by
  decide

/-- C5 amended: after any sequence of s32 RTT samples, `min_rtt_us` equals
the minimum of the RTTs of the accepted samples (those with
`rtt_sample > 0` and `packets_acked ≠ 0`), the sentinel when none was
accepted; and a single `reno_custom_pkts_acked` call never increases
`min_rtt_us`. -/
theorem C5_min_rtt_history (l : List (Int × Nat)) (ca : RenoBwe) (rtt : Int)
    (pkts : Nat) (hs : ∀ p ∈ l, p.1 ≤ 2147483647) (hr : rtt ≤ 2147483647) :
    (run_updates reno_custom_init l).min_rtt_us =
      (acceptedRtts l).foldl min SENTINEL ∧
    (reno_custom_pkts_acked ca rtt pkts).min_rtt_us ≤ ca.min_rtt_us := by
  constructor
  · exact run_updates_min_rtt l reno_custom_init hs
  · by_cases hg : rtt ≤ 0 ∨ pkts = 0
    · rw [pkts_acked_guard ca rtt pkts hg]
    · rw [pkts_acked_min_rtt ca rtt pkts hg]
      simp only [SENTINEL]
      split_ifs with h1 <;> omega

/-- Witness for C5 on a three-sample history with one rejected sample. -/
theorem C5_min_rtt_history_witness :
    ((∀ p ∈ [((100 : Int), (0 : Nat)), (50000, 3), (60000, 2)],
        p.1 ≤ 2147483647) ∧ (40000 : Int) ≤ 2147483647) ∧
    ((run_updates reno_custom_init
        [((100 : Int), (0 : Nat)), (50000, 3), (60000, 2)]).min_rtt_us =
      (acceptedRtts [((100 : Int), (0 : Nat)), (50000, 3), (60000, 2)]).foldl
        min SENTINEL ∧
    (reno_custom_pkts_acked reno_custom_init 40000 1).min_rtt_us ≤
      reno_custom_init.min_rtt_us) :=
  ⟨⟨by decide, by decide⟩,
    C5_min_rtt_history [((100 : Int), (0 : Nat)), (50000, 3), (60000, 2)]
      reno_custom_init 40000 1 (by decide) (by decide)⟩

/-- C9: a positive RTT sample numerically equal to the sentinel
(`rtt_us = 0x7fffffff`) passes the guard but leaves `min_rtt_us` at the
sentinel, so the estimator still counts as having no min-RTT and
`reno_custom_ssthresh` keeps returning the plain-Reno fallback
`max (cwnd / 2) 2`. -/
theorem C9_sentinel_rtt_sample (pkts cwnd : Nat) (h : 0 < pkts) :
    (reno_custom_pkts_acked reno_custom_init 2147483647 pkts).min_rtt_us =
      SENTINEL ∧
    reno_custom_ssthresh (reno_custom_pkts_acked reno_custom_init 2147483647 pkts)
      cwnd = max (cwnd / 2) 2 := by
  have hg : ¬ ((2147483647 : Int) ≤ 0 ∨ pkts = 0) := by
    rw [not_or]
    exact ⟨by decide, by omega⟩
  have hmin : (reno_custom_pkts_acked reno_custom_init 2147483647 pkts).min_rtt_us =
      SENTINEL := by
    rw [pkts_acked_min_rtt reno_custom_init 2147483647 pkts hg]
    split_ifs with h1 <;> rfl
  refine ⟨hmin, ?_⟩
  rw [reno_custom_ssthresh, if_pos (Or.inl hmin)]

/-- Witness for C9 at `pkts = 5000`, `cwnd = 17`. -/
theorem C9_sentinel_rtt_sample_witness :
    0 < 5000 ∧
    ((reno_custom_pkts_acked reno_custom_init 2147483647 5000).min_rtt_us =
      SENTINEL ∧
    reno_custom_ssthresh (reno_custom_pkts_acked reno_custom_init 2147483647 5000)
      17 = max (17 / 2) 2) :=
  ⟨by decide, C9_sentinel_rtt_sample 5000 17 (by decide)⟩

/-- C2 fails as stated: the not-window-limited early return (line 91-92)
skips the final clamp, so a call on a state whose window already exceeds
the clamp leaves it there. -/
theorem C2_counterexample :
    ¬ (reno_custom_cong_avoid reno_custom_init ⟨10, 20, 0, 5⟩ false 1).snd_cwnd ≤
      (⟨10, 20, 0, 5⟩ : TcpSock).snd_cwnd_clamp := by
  decide

/-- C2 amended: whenever `is_cwnd_limited` is true the post-call window is
at most `snd_cwnd_clamp` (every growth path ends in a clamp: the
slow-start helper clamps on its early-return path and the final clamp of
line 114 is applied otherwise); a not-limited call returns with the window
untouched, so `cwnd ≤ cwnd_clamp` is preserved whenever it held before. -/
theorem C2_clamp_respected (ca : RenoBwe) (tp : TcpSock) (limited : Bool)
    (acked : Nat) (h : limited = true ∨ tp.snd_cwnd ≤ tp.snd_cwnd_clamp) :
    (reno_custom_cong_avoid ca tp limited acked).snd_cwnd ≤ tp.snd_cwnd_clamp := by
  cases limited with
  | false =>
    have hle : tp.snd_cwnd ≤ tp.snd_cwnd_clamp := by
      rcases h with h | h
      · exact absurd h (by decide)
      · exact h
    simpa [reno_custom_cong_avoid] using hle
  | true =>
    simp only [reno_custom_cong_avoid, if_neg (by decide : ¬ (true = false))]
    split_ifs with hss hz
    · exact Nat.min_le_right _ _
    · exact cong_avoid_core_cwnd_le ca _ _
    · exact cong_avoid_core_cwnd_le ca tp acked

/-- Witness for C2 on a window-limited call in congestion avoidance. -/
theorem C2_clamp_respected_witness :
    (true = true ∨ (⟨10, 8, 0, 5⟩ : TcpSock).snd_cwnd ≤
      (⟨10, 8, 0, 5⟩ : TcpSock).snd_cwnd_clamp) ∧
    (reno_custom_cong_avoid reno_custom_init ⟨10, 8, 0, 5⟩ true 4).snd_cwnd ≤
      (⟨10, 8, 0, 5⟩ : TcpSock).snd_cwnd_clamp :=
  ⟨Or.inl rfl, C2_clamp_respected reno_custom_init ⟨10, 8, 0, 5⟩ true 4 (Or.inl rfl)⟩

/-- C6 fails as stated: with `bwe_filt_pps = 2147483653` and
`min_rtt_us = 10^6` the 64-bit `bdp` is `2147483653`, so the mathematical
cap `2 * bdp = 4294967306` exceeds `cwnd = 1000` and the spec-described
step would leave the window alone; the code doubles the `u32` truncation
of `bdp` and wraps to `cap = 10`, cutting the window to `10`. -/
theorem C6_counterexample :
    (bdp_cap_step ⟨1000000, 0, 2147483653, 0⟩ ⟨1000, 5, 0, 4294967295⟩).snd_cwnd = 10 ∧
    (bdp_cap_step_spec ⟨1000000, 0, 2147483653, 0⟩
      ⟨1000, 5, 0, 4294967295⟩).snd_cwnd = 1000 ∧
    (10 : Nat) ≠ 1000 := by
  refine ⟨by decide, ?_, by decide⟩
  decide

/-- C6 amended: when both estimator fields are known, the cap is
`(2 * (bdp mod 2^32)) mod 2^32` — the `u32` truncation of `bdp` doubled in
`u32` arithmetic — and the window is lowered to the cap exactly when the
cap is positive and smaller; whenever that 32-bit cap is positive, the
post-step window still never exceeds the mathematical `2 * bdp`. -/
theorem C6_bdp_cap (ca : RenoBwe) (tp : TcpSock)
    (hk : ca.min_rtt_us ≠ SENTINEL ∧ 0 < ca.bwe_filt_pps) :
    (bdp_cap_step ca tp).snd_cwnd =
      (if 0 < ca.bwe_filt_pps * ca.min_rtt_us / 1000000 % U32 * 2 % U32 ∧
          ca.bwe_filt_pps * ca.min_rtt_us / 1000000 % U32 * 2 % U32 < tp.snd_cwnd
        then ca.bwe_filt_pps * ca.min_rtt_us / 1000000 % U32 * 2 % U32
        else tp.snd_cwnd) ∧
    (0 < ca.bwe_filt_pps * ca.min_rtt_us / 1000000 % U32 * 2 % U32 →
      (bdp_cap_step ca tp).snd_cwnd ≤
        2 * (ca.bwe_filt_pps * ca.min_rtt_us / 1000000)) := by
  have hm1 : ca.bwe_filt_pps * ca.min_rtt_us / 1000000 % U32 ≤
      ca.bwe_filt_pps * ca.min_rtt_us / 1000000 := Nat.mod_le _ _
  have hm2 : ca.bwe_filt_pps * ca.min_rtt_us / 1000000 % U32 * 2 % U32 ≤
      ca.bwe_filt_pps * ca.min_rtt_us / 1000000 % U32 * 2 := Nat.mod_le _ _
  have hcap2 : ca.bwe_filt_pps * ca.min_rtt_us / 1000000 % U32 * 2 % U32 ≤
      2 * (ca.bwe_filt_pps * ca.min_rtt_us / 1000000) := by omega
  simp only [bdp_cap_step, if_pos hk]
  split_ifs with hc
  · exact ⟨rfl, fun _ => hcap2⟩
  · refine ⟨rfl, fun h0 => ?_⟩
    have hnc : ¬ (ca.bwe_filt_pps * ca.min_rtt_us / 1000000 % U32 * 2 % U32 <
        tp.snd_cwnd) := fun hlt => hc ⟨h0, hlt⟩
    omega

/-- Witness for C6: `bdp = 20`, cap `40`, window cut from `100` to `40`. -/
theorem C6_bdp_cap_witness :
    ((⟨100000, 0, 200, 0⟩ : RenoBwe).min_rtt_us ≠ SENTINEL ∧
      0 < (⟨100000, 0, 200, 0⟩ : RenoBwe).bwe_filt_pps) ∧
    ((bdp_cap_step ⟨100000, 0, 200, 0⟩ ⟨100, 5, 0, 1000⟩).snd_cwnd =
      (if 0 < (⟨100000, 0, 200, 0⟩ : RenoBwe).bwe_filt_pps *
            (⟨100000, 0, 200, 0⟩ : RenoBwe).min_rtt_us / 1000000 % U32 * 2 % U32 ∧
          (⟨100000, 0, 200, 0⟩ : RenoBwe).bwe_filt_pps *
            (⟨100000, 0, 200, 0⟩ : RenoBwe).min_rtt_us / 1000000 % U32 * 2 % U32 <
            (⟨100, 5, 0, 1000⟩ : TcpSock).snd_cwnd
        then (⟨100000, 0, 200, 0⟩ : RenoBwe).bwe_filt_pps *
            (⟨100000, 0, 200, 0⟩ : RenoBwe).min_rtt_us / 1000000 % U32 * 2 % U32
        else (⟨100, 5, 0, 1000⟩ : TcpSock).snd_cwnd) ∧
    (0 < (⟨100000, 0, 200, 0⟩ : RenoBwe).bwe_filt_pps *
        (⟨100000, 0, 200, 0⟩ : RenoBwe).min_rtt_us / 1000000 % U32 * 2 % U32 →
      (bdp_cap_step ⟨100000, 0, 200, 0⟩ ⟨100, 5, 0, 1000⟩).snd_cwnd ≤
        2 * ((⟨100000, 0, 200, 0⟩ : RenoBwe).bwe_filt_pps *
          (⟨100000, 0, 200, 0⟩ : RenoBwe).min_rtt_us / 1000000))) :=
  ⟨by decide, C6_bdp_cap ⟨100000, 0, 200, 0⟩ ⟨100, 5, 0, 1000⟩ (by decide)⟩

/-- A starved sample (`pkts * 10^6 < rtt`) zeroes the instantaneous
bandwidth and feeds `0` into the EWMA filter. -/
theorem pkts_acked_bwe_zero (ca : RenoBwe) (rtt : Int) (pkts : Nat)
    (hg : ¬ (rtt ≤ 0 ∨ pkts = 0)) (h3 : pkts * 1000000 < rtt.toNat) :
    (reno_custom_pkts_acked ca rtt pkts).bwe_pps = 0 ∧
    (reno_custom_pkts_acked ca rtt pkts).bwe_filt_pps =
      ewma_filter ca.bwe_filt_pps 0 := by
  have hdiv : pkts * 1000000 / rtt.toNat = 0 := Nat.div_eq_of_lt h3
  simp only [reno_custom_pkts_acked, if_neg hg, hdiv]
  split_ifs with h1 <;> exact ⟨rfl, rfl⟩

/-- Feeding a zero sample into a positive, in-range filter strictly
decreases it. -/
theorem ewma_zero_decrease (F : Nat) (hF : 0 < F) (hU : F < U32) :
    ewma_filter F 0 < F := by
  rw [ewma_filter, if_neg (by omega)]
  have hm : (7 * F + 0) % U32 ≤ 7 * F + 0 := Nat.mod_le _ _
  omega

/-- The filter value after a zero sample stays below `2^32`. -/
theorem ewma_zero_lt (F : Nat) : ewma_filter F 0 < U32 := by
  rw [ewma_filter]
  split_ifs with h
  · decide
  · have hm : (7 * F + 0) % U32 < U32 := Nat.mod_lt _ (by decide)
    have hd : (7 * F + 0) % U32 / 8 ≤ (7 * F + 0) % U32 := Nat.div_le_self _ _
    omega

/-- Each starved sample drops the filter by at least one until it is zero. -/
theorem run_starved_filt (rtt : Int) (pkts : Nat)
    (hg : ¬ (rtt ≤ 0 ∨ pkts = 0)) (h3 : pkts * 1000000 < rtt.toNat) :
    ∀ (n : Nat) (ca : RenoBwe), ca.bwe_filt_pps < U32 →
      (run_updates ca (List.replicate n (rtt, pkts))).bwe_filt_pps ≤
        ca.bwe_filt_pps - n := by
  intro n
  induction n with
  | zero =>
    intro ca _
    simp [run_updates, List.replicate]
  | succ k ih =>
    intro ca hU
    rw [List.replicate_succ]
    simp only [run_updates]
    have hstep := (pkts_acked_bwe_zero ca rtt pkts hg h3).2
    have hnext := ih (reno_custom_pkts_acked ca rtt pkts)
      (by rw [hstep]; exact ewma_zero_lt ca.bwe_filt_pps)
    rw [hstep] at hnext
    by_cases hF : ca.bwe_filt_pps = 0
    · have h0 : ewma_filter ca.bwe_filt_pps 0 = 0 := by rw [hF]; rfl
      omega
    · have hdec : ewma_filter ca.bwe_filt_pps 0 < ca.bwe_filt_pps :=
        ewma_zero_decrease _ (Nat.pos_of_ne_zero hF) hU
      omega

/-- C10: a sample with `pkts * 10^6 < rtt` sets `bwe_pps = 0`; a zero
filter stays zero (still counted as never set), a positive in-range filter
strictly decreases, and after `bwe_filt_pps` many such samples the filter
is exactly zero, whereupon `reno_custom_ssthresh` returns the plain-Reno
fallback `max (cwnd / 2) 2`. -/
theorem C10_starved_bw_degrades (ca : RenoBwe) (rtt : Int) (pkts cwnd : Nat)
    (h1 : 0 < rtt) (h2 : pkts ≠ 0) (h3 : pkts * 1000000 < rtt.toNat)
    (hU : ca.bwe_filt_pps < U32) :
    (reno_custom_pkts_acked ca rtt pkts).bwe_pps = 0 ∧
    (ca.bwe_filt_pps = 0 →
      (reno_custom_pkts_acked ca rtt pkts).bwe_filt_pps = 0) ∧
    (0 < ca.bwe_filt_pps →
      (reno_custom_pkts_acked ca rtt pkts).bwe_filt_pps < ca.bwe_filt_pps) ∧
    (run_updates ca (List.replicate ca.bwe_filt_pps (rtt, pkts))).bwe_filt_pps
      = 0 ∧
    reno_custom_ssthresh
      (run_updates ca (List.replicate ca.bwe_filt_pps (rtt, pkts))) cwnd =
      max (cwnd / 2) 2 := by
  have hg : ¬ (rtt ≤ 0 ∨ pkts = 0) := by
    rw [not_or]
    exact ⟨by omega, h2⟩
  obtain ⟨ha, hb⟩ := pkts_acked_bwe_zero ca rtt pkts hg h3
  have hrun := run_starved_filt rtt pkts hg h3 ca.bwe_filt_pps ca hU
  have hzero :
      (run_updates ca (List.replicate ca.bwe_filt_pps (rtt, pkts))).bwe_filt_pps
        = 0 := by omega
  refine ⟨ha, ?_, ?_, hzero, ?_⟩
  · intro h0
    rw [hb, h0]
    rfl
  · intro hpos
    rw [hb]
    exact ewma_zero_decrease _ hpos hU
  · rw [reno_custom_ssthresh, if_pos (Or.inr hzero)]

/-- Witness for C10: filter `3`, RTT four seconds, one packet per batch. -/
theorem C10_starved_bw_degrades_witness :
    (0 < (4000000 : Int) ∧ (1 : Nat) ≠ 0 ∧ 1 * 1000000 < (4000000 : Int).toNat ∧
      (⟨50000, 3, 3, 0⟩ : RenoBwe).bwe_filt_pps < U32) ∧
    ((reno_custom_pkts_acked ⟨50000, 3, 3, 0⟩ 4000000 1).bwe_pps = 0 ∧
    ((⟨50000, 3, 3, 0⟩ : RenoBwe).bwe_filt_pps = 0 →
      (reno_custom_pkts_acked ⟨50000, 3, 3, 0⟩ 4000000 1).bwe_filt_pps = 0) ∧
    (0 < (⟨50000, 3, 3, 0⟩ : RenoBwe).bwe_filt_pps →
      (reno_custom_pkts_acked ⟨50000, 3, 3, 0⟩ 4000000 1).bwe_filt_pps <
        (⟨50000, 3, 3, 0⟩ : RenoBwe).bwe_filt_pps) ∧
    (run_updates ⟨50000, 3, 3, 0⟩
      (List.replicate (⟨50000, 3, 3, 0⟩ : RenoBwe).bwe_filt_pps
        (4000000, 1))).bwe_filt_pps = 0 ∧
    reno_custom_ssthresh
      (run_updates ⟨50000, 3, 3, 0⟩
        (List.replicate (⟨50000, 3, 3, 0⟩ : RenoBwe).bwe_filt_pps
          (4000000, 1))) 9 = max (9 / 2) 2) :=
  ⟨⟨by decide, by decide, by decide, by decide⟩,
    C10_starved_bw_degrades ⟨50000, 3, 3, 0⟩ 4000000 1 9
      (by decide) (by decide) (by decide) (by decide)⟩

